import Mathlib

/-!
Verification of the BMRB relaxation-data fetcher (`bmrb_data_fetcher.py`).

The relevant Python functions — `parse_relaxation_data`, `get_pdb_structure`
and `fetch_entry` of class `BMRBFetcher` — operate on JSON documents obtained
from `json.load`/`response.json()`.  We embed such documents as the inductive
type `JValue` (null, bool, number, string, array, object), model Python's
runtime exceptions with `Except Unit`, and model IEEE floats as rationals
(every decimal literal the code ever produces is a rational).  Objects are
association lists with first-match lookup, mirroring `dict` access for the
duplicate-free documents JSON parsing yields.
-/

set_option autoImplicit false

namespace BMRB

/-- A JSON document, as produced by Python's `json` module. -/
inductive JValue where
  | jnull
  | jbool (b : Bool)
  | jnum (q : ℚ)
  | jstr (s : String)
  | jarr (xs : List JValue)
  | jobj (fields : List (String × JValue))

/-- Exception-propagating sequencing: Python evaluation inside a `try` block.
An exception (`Except.error ()`) raised by the first computation aborts the
second. -/
def exBind {α β : Type} : Except Unit α → (α → Except Unit β) → Except Unit β
  | .error e, _ => .error e
  | .ok a, f => f a

/-- Python truthiness (`bool(x)`) of a JSON value: `None`, `False`, `0`, `""`,
`[]` and `{}` are falsy. -/
def pyTruthy : JValue → Bool
  | .jnull => false
  | .jbool b => b
  | .jnum q => q != 0
  | .jstr s => s != ""
  | .jarr xs => !xs.isEmpty
  | .jobj fs => !fs.isEmpty

/-- Does `needle` occur at the start of `hay`? (Char-list helper for Python's
substring containment on strings.) -/
def leadsWith : List Char → List Char → Bool
  | [], _ => true
  | _ :: _, [] => false
  | a :: as, b :: bs => a == b && leadsWith as bs

/-- Is `needle` a contiguous sublist of `hay`? -/
def subSearch (needle : List Char) : List Char → Bool
  | [] => needle.isEmpty
  | c :: t => leadsWith needle (c :: t) || subSearch needle t

/-- Python's `key in v` for a string key: dict key membership, list element
membership, string substring containment; a `TypeError` otherwise. -/
def pyContains (v : JValue) (key : String) : Except Unit Bool :=
  match v with
  | .jobj fields => .ok (List.lookup key fields).isSome
  | .jarr xs => .ok (xs.any fun x => match x with | .jstr s => s == key | _ => false)
  | .jstr s => .ok (subSearch key.data s.data)
  | _ => .error ()

/-- Python's `v[key]` for a string key: dict item access (`KeyError` when the
key is absent), `TypeError` on every non-dict value. -/
def pyGetItem (v : JValue) (key : String) : Except Unit JValue :=
  match v with
  | .jobj fields =>
    match List.lookup key fields with
    | some x => .ok x
    | none => .error ()
  | _ => .error ()

/-- Python's `for x in v`: lists yield their elements, dicts their keys (in
insertion order), strings their one-character substrings; everything else
raises `TypeError`. -/
def pyIter : JValue → Except Unit (List JValue)
  | .jarr xs => .ok xs
  | .jobj fields => .ok (fields.map fun p => .jstr p.1)
  | .jstr s => .ok (s.data.map fun c => .jstr (String.mk [c]))
  | _ => .error ()

/-- Splits a leading run of decimal digits off a character list. -/
def takeDigits : List Char → List Char × List Char
  | [] => ([], [])
  | c :: rest =>
    if c.isDigit then
      let p := takeDigits rest
      (c :: p.1, p.2)
    else ([], c :: rest)

/-- Numeric value of a digit run (most significant first). -/
def digitsVal (acc : Nat) : List Char → Nat
  | [] => acc
  | c :: rest => digitsVal (10 * acc + (c.toNat - 48)) rest

/-- The exact value of a Python float literal: optional surrounding spaces,
optional sign, integer and/or fractional digit runs, optional exponent.
`none` when the string is not a float literal (Python's `float()` raises
`ValueError`). -/
def parseDec (s : String) : Option ℚ :=
  let cs0 := s.data.dropWhile (· == ' ')
  let cs1 := ((cs0.reverse).dropWhile (· == ' ')).reverse
  let signed : ℚ × List Char :=
    match cs1 with
    | '-' :: r => (-1, r)
    | '+' :: r => (1, r)
    | _ => (1, cs1)
  let ipPart := takeDigits signed.2
  let afterInt := ipPart.2
  let fracPart : List Char × List Char :=
    match afterInt with
    | '.' :: r => takeDigits r
    | _ => ([], afterInt)
  if ipPart.1.isEmpty && fracPart.1.isEmpty then none
  else
    let mantissa : ℚ :=
      (digitsVal 0 ipPart.1 : ℚ) + (digitsVal 0 fracPart.1 : ℚ) / ((10 : ℚ) ^ fracPart.1.length)
    match fracPart.2 with
    | [] => some (signed.1 * mantissa)
    | e :: r =>
      if e == 'e' || e == 'E' then
        let esigned : Bool × List Char :=
          match r with
          | '-' :: r2 => (true, r2)
          | '+' :: r2 => (false, r2)
          | _ => (false, r)
        let eds := takeDigits esigned.2
        if eds.1.isEmpty || !eds.2.isEmpty then none
        else
          let n := digitsVal 0 eds.1
          some (signed.1 * (if esigned.1 then mantissa / (10 : ℚ) ^ n else mantissa * (10 : ℚ) ^ n))
      else none

/-- Python's `float(x)` on a JSON value: numbers pass through, booleans become
0/1, strings are parsed as float literals; `None`, lists and dicts raise
`TypeError`, non-numeric strings raise `ValueError`. -/
def pyFloat : JValue → Except Unit ℚ
  | .jnum q => .ok q
  | .jbool b => .ok (if b then 1 else 0)
  | .jstr s =>
    match parseDec s with
    | some q => .ok q
    | none => .error ()
  | _ => .error ()

/-- One normalized measurement row, the dict appended by
`parse_relaxation_data` for each source row.  `label` holds the `'atom'`
entry (key `Atom_ID`, default `"N"`) for R1/R2/NOE rows and the `'type'`
entry (key `Rex_type`, default `"DD_CSA"`) for CCR rows; `residue` is the
raw `Comp_index_ID` value (`none` when the key is absent, like
`dict.get`). -/
structure Measurement where
  residue : Option JValue
  label : JValue
  value : ℚ
  error : ℚ

/-- The value of `relaxation_data` returned by `parse_relaxation_data`. -/
structure RelaxationRecordSet where
  bmrb_id : Nat
  R1 : List Measurement
  R2 : List Measurement
  NOE : List Measurement
  CCR : List Measurement

/-- The four relaxation observable kinds extracted by
`parse_relaxation_data`. -/
inductive Kind where
  | R1
  | R2
  | NOE
  | CCR
deriving DecidableEq

/-- The output sequence of one observable kind in a record set. -/
def kindSeq : Kind → RelaxationRecordSet → List Measurement
  | .R1, r => r.R1
  | .R2, r => r.R2
  | .NOE, r => r.NOE
  | .CCR, r => r.CCR

/-- The top-level section key the code tests for each kind. -/
def sectionKey : Kind → String
  | .R1 => "heteronucl_T1_relaxation"
  | .R2 => "heteronucl_T2_relaxation"
  | .NOE => "heteronucl_NOEs"
  | .CCR => "cross_correlation_DD_CSA"

/-- The per-row label key: `Atom_ID` for R1/R2/NOE, `Rex_type` for CCR. -/
def labelKey : Kind → String
  | .CCR => "Rex_type"
  | _ => "Atom_ID"

/-- The label default: `"N"` for R1/R2/NOE, `"DD_CSA"` for CCR. -/
def labelDefault : Kind → String
  | .CCR => "DD_CSA"
  | _ => "N"

/-- One row of a `data` loop, embedding the dict literal the code builds:
`row.get` requires a dict (`AttributeError` otherwise), `Val`/`Val_err`
default to the integer `0` before `float` coercion, and the label key
defaults to the given string. -/
def parseRow (lk ld : String) (row : JValue) : Except Unit Measurement :=
  match row with
  | .jobj rf =>
    exBind (pyFloat ((List.lookup "Val" rf).getD (.jnum 0))) fun v =>
      exBind (pyFloat ((List.lookup "Val_err" rf).getD (.jnum 0))) fun e =>
        .ok { residue := List.lookup "Comp_index_ID" rf
              label := (List.lookup lk rf).getD (.jstr ld)
              value := v
              error := e }
  | _ => .error ()

/-- The inner `for row in loop['data']` loop: one appended measurement per
row, in row order; the first exception aborts. -/
def parseRows (lk ld : String) : List JValue → Except Unit (List Measurement)
  | [] => .ok []
  | r :: rest =>
    exBind (parseRow lk ld r) fun m =>
      exBind (parseRows lk ld rest) fun ms => .ok (m :: ms)

/-- One iteration of the `for t1_loop in entry_data[...]` loop: the
`'data' in loop` test (skip when absent), then the row walk. -/
def extractLoop1 (lk ld : String) (l : JValue) : Except Unit (List Measurement) :=
  exBind (pyContains l "data") fun present =>
    if present then
      exBind (pyGetItem l "data") fun rowsv =>
        exBind (pyIter rowsv) fun rows =>
          parseRows lk ld rows
    else .ok []

/-- The loop over a section's value, loops in iteration order. -/
def extractLoops (lk ld : String) : List JValue → Except Unit (List Measurement)
  | [] => .ok []
  | l :: rest =>
    exBind (extractLoop1 lk ld l) fun ms =>
      exBind (extractLoops lk ld rest) fun msRest => .ok (ms ++ msRest)

/-- One section of `parse_relaxation_data`: the `key in entry_data` test
(skip, leaving the sequence empty, when absent), then the loop walk. -/
def extractSection (sk lk ld : String) (d : JValue) : Except Unit (List Measurement) :=
  exBind (pyContains d sk) fun present =>
    if present then
      exBind (pyGetItem d sk) fun sect =>
        exBind (pyIter sect) fun loops =>
          extractLoops lk ld loops
    else .ok []

/-- The extraction of one observable kind from the document. -/
def extractKind (k : Kind) (d : JValue) : Except Unit (List Measurement) :=
  extractSection (sectionKey k) (labelKey k) (labelDefault k) d

/-- `BMRBFetcher.parse_relaxation_data(entry_data, bmrb_id)`.  `none` models
Python `None` (both as input and as result).  A falsy `entry_data` returns
`None` at once; otherwise the four sections are walked inside one
`try`/`except` whose handler returns `None`, so the first exception anywhere
discards all four sequences. -/
def parse_relaxation_data (entry_data : Option JValue) (bmrb_id : Nat) :
    Option RelaxationRecordSet :=
  match entry_data with
  | none => none
  | some d =>
    if pyTruthy d then
      match exBind (extractKind .R1 d) fun r1 =>
              exBind (extractKind .R2 d) fun r2 =>
                exBind (extractKind .NOE d) fun noe =>
                  exBind (extractKind .CCR d) fun ccr =>
                    .ok (r1, r2, noe, ccr) with
      | .ok (r1, r2, noe, ccr) =>
        some { bmrb_id := bmrb_id, R1 := r1, R2 := r2, NOE := noe, CCR := ccr }
      | .error _ => none
    else none

/-- The `for entry in entry_data['related_entries']` scan of
`get_pdb_structure`: return the `Database_accession_code` entry of the first
row whose `Database_name` entry equals the string `"PDB"`; `entry.get` on a
non-dict raises. -/
def scanRelated : List JValue → Except Unit (Option JValue)
  | [] => .ok none
  | e :: rest =>
    match e with
    | .jobj ef =>
      match List.lookup "Database_name" ef with
      | some (.jstr s) =>
        if s == "PDB" then .ok (List.lookup "Database_accession_code" ef)
        else scanRelated rest
      | _ => scanRelated rest
    | _ => .error ()

/-- `BMRBFetcher.get_pdb_structure(entry_data)`.  The whole body sits in a
bare `try`/`except: pass`, so any exception (including the membership test on
a `None` or non-container input) falls through to the final `return None`. -/
def get_pdb_structure (entry_data : Option JValue) : Option JValue :=
  let r : Except Unit (Option JValue) :=
    match entry_data with
    | none => .error ()
    | some d =>
      exBind (pyContains d "related_entries") fun present =>
        if present then
          exBind (pyGetItem d "related_entries") fun sect =>
            exBind (pyIter sect) fun entries =>
              scanRelated entries
        else .ok none
  match r with
  | .ok v => v
  | .error _ => none

/-- One remote `requests.get` response: HTTP status code and the JSON body
that `response.json()` would yield. -/
structure RemoteResponse where
  status_code : Nat
  body : JValue

/-- `BMRBFetcher.fetch_entry(bmrb_id)`, with the filesystem cache made
explicit: the cache is the map identifier ↦ stored document (file
`bmrb_<id>.json` exists iff the id has an entry), and the remote service is
the oracle `remote`.  Result: the returned document (`none` models Python
`None`), the cache after the call, and whether a remote request was made. -/
def fetch_entry (remote : Nat → RemoteResponse) (cache : List (Nat × JValue))
    (bmrb_id : Nat) : Option JValue × List (Nat × JValue) × Bool :=
  match List.lookup bmrb_id cache with
  | some doc => (some doc, cache, false)
  | none =>
    let response := remote bmrb_id
    if response.status_code == 200 then
      (some response.body, (bmrb_id, response.body) :: cache, true)
    else
      (none, cache, true)

/-- The extraction of a section seen through the dict lookup of its key:
skip when absent, walk the stored value when present.  `extractSection` on an
object equals this applied to the lookup result
(`extractSection_jobj` below). -/
def sectionOfLookup (lk ld : String) : Option JValue → Except Unit (List Measurement)
  | none => .ok []
  | some sect =>
    exBind (pyIter sect) fun loops => extractLoops lk ld loops

/-- The source rows visited by one loop iteration, in visit order (the same
walk as `extractLoop1` with the per-row parsing left out). -/
def collectLoop1 (l : JValue) : Except Unit (List JValue) :=
  exBind (pyContains l "data") fun present =>
    if present then
      exBind (pyGetItem l "data") fun rowsv => pyIter rowsv
    else .ok []

/-- The source rows of a list of loops, loops in order, rows in order. -/
def collectLoops : List JValue → Except Unit (List JValue)
  | [] => .ok []
  | l :: rest =>
    exBind (collectLoop1 l) fun rows =>
      exBind (collectLoops rest) fun rs => .ok (rows ++ rs)

/-- The source rows of one section of the document, in document order. -/
def collectSectionRows (sk : String) (d : JValue) : Except Unit (List JValue) :=
  exBind (pyContains d sk) fun present =>
    if present then
      exBind (pyGetItem d sk) fun sect =>
        exBind (pyIter sect) fun loops => collectLoops loops
    else .ok []

/-- The document of the end-to-end scenario: one T1 loop with one row
`{residue 1, atom "N", value "1.2", error "0.05"}` and no other sections. -/
def oneRowDoc : JValue :=
  .jobj [("heteronucl_T1_relaxation", .jarr [
    .jobj [("data", .jarr [
      .jobj [("Comp_index_ID", .jnum 1), ("Atom_ID", .jstr "N"),
             ("Val", .jstr "1.2"), ("Val_err", .jstr "0.05")]])]])]

/-- A document whose T1 section holds a row with a present non-numeric
`Val` and whose NOE section is entirely well-formed: exercises the
whole-entry abort. -/
def badValDoc : JValue :=
  .jobj [("heteronucl_T1_relaxation", .jarr [
           .jobj [("data", .jarr [.jobj [("Val", .jstr "abc")]])]]),
         ("heteronucl_NOEs", .jarr [
           .jobj [("data", .jarr [
             .jobj [("Comp_index_ID", .jnum 3), ("Val", .jnum 2)]])]])]

/-- A two-row T1 document used to exhibit row-order preservation. -/
def twoRowDoc : JValue :=
  .jobj [("heteronucl_T1_relaxation", .jarr [
    .jobj [("data", .jarr [
      .jobj [("Comp_index_ID", .jnum 1), ("Val", .jnum 1)],
      .jobj [("Comp_index_ID", .jnum 2), ("Val", .jnum 2)]])]])]

/-- A related-entries section with a non-matching row before the matching
one, used for the structure-resolver witness. -/
def pdbDoc : JValue :=
  .jobj [("related_entries", .jarr [
    .jobj [("Database_name", .jstr "BMRB")],
    .jobj [("Database_name", .jstr "PDB"),
           ("Database_accession_code", .jstr "1P7E")]])]

@[simp] theorem exBind_ok {α β : Type} (a : α) (f : α → Except Unit β) :
    exBind (.ok a) f = f a := rfl

@[simp] theorem exBind_error {α β : Type} (e : Unit) (f : α → Except Unit β) :
    exBind (.error e) f = .error e := rfl

theorem extractSection_jobj (sk lk ld : String) (f : List (String × JValue)) :
    extractSection sk lk ld (.jobj f) = sectionOfLookup lk ld (List.lookup sk f) := by
  cases h : List.lookup sk f <;>
    simp [extractSection, pyContains, pyGetItem, sectionOfLookup, h]

theorem parseRow_ok_label (lk ld : String) (rf : List (String × JValue))
    (m : Measurement) (h : parseRow lk ld (.jobj rf) = .ok m) :
    m.label = (List.lookup lk rf).getD (.jstr ld) := by
  simp only [parseRow] at h
  cases h1 : pyFloat ((List.lookup "Val" rf).getD (.jnum 0)) with
  | error e => rw [h1] at h; simp at h
  | ok v =>
    rw [h1] at h
    cases h2 : pyFloat ((List.lookup "Val_err" rf).getD (.jnum 0)) with
    | error e => rw [h2] at h; simp at h
    | ok e =>
      rw [h2] at h
      simp only [exBind_ok, Except.ok.injEq] at h
      rw [← h]

theorem parseRows_append (lk ld : String) (r1 r2 : List JValue)
    (m1 m2 : List Measurement) (h1 : parseRows lk ld r1 = .ok m1)
    (h2 : parseRows lk ld r2 = .ok m2) :
    parseRows lk ld (r1 ++ r2) = .ok (m1 ++ m2) := by
  induction r1 generalizing m1 with
  | nil =>
    simp only [parseRows, Except.ok.injEq] at h1
    simp [← h1, h2]
  | cons r rest ih =>
    simp only [parseRows] at h1
    cases hr : parseRow lk ld r with
    | error e => rw [hr] at h1; simp at h1
    | ok m =>
      rw [hr] at h1
      cases hrest : parseRows lk ld rest with
      | error e => rw [hrest] at h1; simp at h1
      | ok ms =>
        rw [hrest] at h1
        simp only [exBind_ok, Except.ok.injEq] at h1
        simp only [List.cons_append, parseRows, hr, exBind_ok, List.append_eq,
          ih ms hrest, ← h1]

theorem parseRows_length (lk ld : String) (rows : List JValue)
    (ms : List Measurement) (h : parseRows lk ld rows = .ok ms) :
    ms.length = rows.length := by
  induction rows generalizing ms with
  | nil => simp only [parseRows, Except.ok.injEq] at h; simp [← h]
  | cons r rest ih =>
    simp only [parseRows] at h
    cases hr : parseRow lk ld r with
    | error e => rw [hr] at h; simp at h
    | ok m =>
      rw [hr] at h
      cases hrest : parseRows lk ld rest with
      | error e => rw [hrest] at h; simp at h
      | ok ms2 =>
        rw [hrest] at h
        simp only [exBind_ok, Except.ok.injEq] at h
        simp [← h, ih ms2 hrest]

theorem parseRows_error_of_mem (lk ld : String) (rows : List JValue)
    (r : JValue) (hmem : r ∈ rows) (herr : parseRow lk ld r = .error ()) :
    parseRows lk ld rows = .error () := by
  induction rows with
  | nil => cases hmem
  | cons a rest ih =>
    rcases List.mem_cons.mp hmem with rfl | hmem2
    · simp [parseRows, herr]
    · simp only [parseRows]
      cases ha : parseRow lk ld a with
      | error e => rfl
      | ok m =>
        rw [ih hmem2]
        rfl

theorem extractLoop1_rows (lk ld : String) (l : JValue) (ms : List Measurement)
    (h : extractLoop1 lk ld l = .ok ms) :
    ∃ rows, collectLoop1 l = .ok rows ∧ parseRows lk ld rows = .ok ms := by
  unfold extractLoop1 at h
  unfold collectLoop1
  cases hc : pyContains l "data" with
  | error e => rw [hc] at h; simp at h
  | ok present =>
    rw [hc] at h
    simp only [exBind_ok] at h ⊢
    cases present with
    | false =>
      simp only [Bool.false_eq_true, if_false, Except.ok.injEq] at h ⊢
      exact ⟨[], rfl, by simp [← h, parseRows]⟩
    | true =>
      simp only [if_true] at h ⊢
      cases hg : pyGetItem l "data" with
      | error e => rw [hg] at h; simp at h
      | ok rowsv =>
        rw [hg] at h
        simp only [exBind_ok] at h ⊢
        cases hi : pyIter rowsv with
        | error e => rw [hi] at h; simp at h
        | ok rows =>
          rw [hi] at h
          simp only [exBind_ok] at h
          exact ⟨rows, rfl, h⟩

theorem extractLoops_rows (lk ld : String) (loops : List JValue)
    (ms : List Measurement) (h : extractLoops lk ld loops = .ok ms) :
    ∃ rows, collectLoops loops = .ok rows ∧ parseRows lk ld rows = .ok ms := by
  induction loops generalizing ms with
  | nil =>
    simp only [extractLoops, Except.ok.injEq] at h
    exact ⟨[], rfl, by simp [← h, parseRows]⟩
  | cons l rest ih =>
    simp only [extractLoops] at h
    cases h1 : extractLoop1 lk ld l with
    | error e => rw [h1] at h; simp at h
    | ok ms1 =>
      rw [h1] at h
      cases h2 : extractLoops lk ld rest with
      | error e => rw [h2] at h; simp at h
      | ok ms2 =>
        rw [h2] at h
        simp only [exBind_ok, Except.ok.injEq] at h
        obtain ⟨rows1, hc1, hp1⟩ := extractLoop1_rows lk ld l ms1 h1
        obtain ⟨rows2, hc2, hp2⟩ := ih ms2 h2
        refine ⟨rows1 ++ rows2, ?_, ?_⟩
        · simp [collectLoops, hc1, hc2]
        · rw [← h]; exact parseRows_append lk ld rows1 rows2 ms1 ms2 hp1 hp2

theorem lookup_filter_self (key : String) (fields : List (String × JValue)) :
    List.lookup key (fields.filter fun p => p.1 == key) = List.lookup key fields := by
  induction fields with
  | nil => rfl
  | cons p rest ih =>
    by_cases h : p.1 = key
    · simp [List.filter_cons, List.lookup, h, beq_iff_eq]
    · have hb : (key == p.1) = false := beq_eq_false_iff_ne.mpr fun hc => h hc.symm
      have hb2 : (p.1 == key) = false := beq_eq_false_iff_ne.mpr h
      simp [List.filter_cons, List.lookup, hb, hb2, ih]

theorem extractLoops_error_of_mem (lk ld : String) (loops : List JValue)
    (l : JValue) (hmem : l ∈ loops) (herr : extractLoop1 lk ld l = .error ()) :
    extractLoops lk ld loops = .error () := by
  induction loops with
  | nil => cases hmem
  | cons a rest ih =>
    rcases List.mem_cons.mp hmem with rfl | hmem2
    · simp [extractLoops, herr]
    · simp only [extractLoops]
      cases ha : extractLoop1 lk ld a with
      | error e => rfl
      | ok ms =>
        rw [ih hmem2]
        rfl

theorem scanRelated_skip (pre l : List JValue)
    (hpre : ∀ r ∈ pre, ∃ rf, r = .jobj rf ∧
      List.lookup "Database_name" rf ≠ some (.jstr "PDB")) :
    scanRelated (pre ++ l) = scanRelated l := by
  induction pre with
  | nil => rfl
  | cons a rest ih =>
    obtain ⟨rf, rfl, hne⟩ := hpre a (List.mem_cons_self a rest)
    have ihr := ih fun r hr => hpre r (List.mem_cons_of_mem _ hr)
    simp only [List.cons_append, scanRelated]
    cases hdn : List.lookup "Database_name" rf with
    | none => exact ihr
    | some v =>
      cases v with
      | jstr s =>
        have hne2 : s ≠ "PDB" := by
          intro hcon
          exact hne (by rw [hdn, hcon])
        have hb : (s == "PDB") = false := beq_eq_false_iff_ne.mpr hne2
        simp [hb, List.append_eq, ihr]
      | jnull => exact ihr
      | jbool b => exact ihr
      | jnum q => exact ihr
      | jarr xs => exact ihr
      | jobj fs => exact ihr

theorem parseRows_append_inv (lk ld : String) (r1 r2 : List JValue)
    (m : List Measurement) (h : parseRows lk ld (r1 ++ r2) = .ok m) :
    ∃ m1 m2, parseRows lk ld r1 = .ok m1 ∧ parseRows lk ld r2 = .ok m2 ∧
      m = m1 ++ m2 := by
  induction r1 generalizing m with
  | nil => exact ⟨[], m, rfl, h, rfl⟩
  | cons r rest ih =>
    rw [List.cons_append] at h
    simp only [parseRows] at h
    cases hr : parseRow lk ld r with
    | error e => rw [hr] at h; simp at h
    | ok m0 =>
      rw [hr] at h
      cases hrest : parseRows lk ld (rest ++ r2) with
      | error e => rw [hrest] at h; simp at h
      | ok ms =>
        rw [hrest] at h
        simp only [exBind_ok, Except.ok.injEq] at h
        obtain ⟨m1, m2, hp1, hp2, rfl⟩ := ih ms hrest
        exact ⟨m0 :: m1, m2, by simp [parseRows, hr, hp1], hp2, by simp [← h]⟩

theorem extractLoop1_of_collect (lk ld : String) (l : JValue)
    (rows : List JValue) (ms : List Measurement)
    (hc : collectLoop1 l = .ok rows) (hp : parseRows lk ld rows = .ok ms) :
    extractLoop1 lk ld l = .ok ms := by
  unfold collectLoop1 at hc
  unfold extractLoop1
  cases h1 : pyContains l "data" with
  | error e => rw [h1] at hc; simp at hc
  | ok present =>
    rw [h1] at hc
    simp only [exBind_ok] at hc ⊢
    cases present with
    | false =>
      simp only [Bool.false_eq_true, if_false, Except.ok.injEq] at hc ⊢
      rw [← hc] at hp
      simp only [parseRows, Except.ok.injEq] at hp
      rw [← hp]
    | true =>
      simp only [if_true] at hc ⊢
      cases h2 : pyGetItem l "data" with
      | error e => rw [h2] at hc; simp at hc
      | ok rowsv =>
        rw [h2] at hc
        simp only [exBind_ok] at hc ⊢
        cases h3 : pyIter rowsv with
        | error e => rw [h3] at hc; simp at hc
        | ok rows2 =>
          rw [h3] at hc
          simp only [exBind_ok, Except.ok.injEq] at hc
          rw [hc]
          simp only [exBind_ok]
          exact hp

theorem extractLoops_of_collect (lk ld : String) (loops : List JValue)
    (rows : List JValue) (ms : List Measurement)
    (hc : collectLoops loops = .ok rows) (hp : parseRows lk ld rows = .ok ms) :
    extractLoops lk ld loops = .ok ms := by
  induction loops generalizing rows ms with
  | nil =>
    simp only [collectLoops, Except.ok.injEq] at hc
    rw [← hc] at hp
    simp only [parseRows, Except.ok.injEq] at hp
    rw [← hp]
    rfl
  | cons l rest ih =>
    simp only [collectLoops] at hc
    cases h1 : collectLoop1 l with
    | error e => rw [h1] at hc; simp at hc
    | ok rows1 =>
      rw [h1] at hc
      cases h2 : collectLoops rest with
      | error e => rw [h2] at hc; simp at hc
      | ok rows2 =>
        rw [h2] at hc
        simp only [exBind_ok, Except.ok.injEq] at hc
        rw [← hc] at hp
        obtain ⟨m1, m2, hp1, hp2, rfl⟩ := parseRows_append_inv lk ld rows1 rows2 ms hp
        simp only [extractLoops, extractLoop1_of_collect lk ld l rows1 m1 h1 hp1,
          exBind_ok, ih rows2 m2 h2 hp2]

theorem extractSection_of_collect (sk lk ld : String) (d : JValue)
    (rows : List JValue) (ms : List Measurement)
    (hc : collectSectionRows sk d = .ok rows)
    (hp : parseRows lk ld rows = .ok ms) :
    extractSection sk lk ld d = .ok ms := by
  unfold collectSectionRows at hc
  unfold extractSection
  cases h1 : pyContains d sk with
  | error e => rw [h1] at hc; simp at hc
  | ok present =>
    rw [h1] at hc
    simp only [exBind_ok] at hc ⊢
    cases present with
    | false =>
      simp only [Bool.false_eq_true, if_false, Except.ok.injEq] at hc ⊢
      rw [← hc] at hp
      simp only [parseRows, Except.ok.injEq] at hp
      rw [← hp]
    | true =>
      simp only [if_true] at hc ⊢
      cases h2 : pyGetItem d sk with
      | error e => rw [h2] at hc; simp at hc
      | ok sect =>
        rw [h2] at hc
        simp only [exBind_ok] at hc ⊢
        cases h3 : pyIter sect with
        | error e => rw [h3] at hc; simp at hc
        | ok loops =>
          rw [h3] at hc
          simp only [exBind_ok] at hc ⊢
          exact extractLoops_of_collect lk ld loops rows ms hc hp

theorem extractSection_rows (sk lk ld : String) (d : JValue)
    (ms : List Measurement) (h : extractSection sk lk ld d = .ok ms) :
    ∃ rows : List JValue, collectSectionRows sk d = .ok rows ∧
      parseRows lk ld rows = .ok ms ∧ ms.length = rows.length := by
  unfold extractSection at h
  unfold collectSectionRows
  cases hc : pyContains d sk with
  | error e => rw [hc] at h; simp at h
  | ok present =>
    rw [hc] at h
    simp only [exBind_ok] at h ⊢
    cases present with
    | false =>
      simp only [Bool.false_eq_true, if_false, Except.ok.injEq] at h ⊢
      exact ⟨[], rfl, by simp [← h, parseRows], by simp [← h]⟩
    | true =>
      simp only [if_true] at h ⊢
      cases hg : pyGetItem d sk with
      | error e => rw [hg] at h; simp at h
      | ok sect =>
        rw [hg] at h
        simp only [exBind_ok] at h ⊢
        cases hi : pyIter sect with
        | error e => rw [hi] at h; simp at h
        | ok loops =>
          rw [hi] at h
          simp only [exBind_ok] at h ⊢
          obtain ⟨rows, hcoll, hparse⟩ := extractLoops_rows lk ld loops ms h
          exact ⟨rows, hcoll, hparse, parseRows_length lk ld rows ms hparse⟩

theorem parse_ok_extract (d : JValue) (bmrb_id : Nat) (r : RelaxationRecordSet)
    (h : parse_relaxation_data (some d) bmrb_id = some r) :
    r.bmrb_id = bmrb_id ∧ ∀ k : Kind, extractKind k d = .ok (kindSeq k r) := by
  simp only [parse_relaxation_data] at h
  cases ht : pyTruthy d with
  | false => rw [ht] at h; simp at h
  | true =>
    rw [ht] at h
    simp only [if_true] at h
    cases h1 : extractKind .R1 d with
    | error e => rw [h1] at h; simp at h
    | ok r1 =>
      rw [h1] at h
      cases h2 : extractKind .R2 d with
      | error e => rw [h2] at h; simp at h
      | ok r2 =>
        rw [h2] at h
        cases h3 : extractKind .NOE d with
        | error e => rw [h3] at h; simp at h
        | ok noe =>
          rw [h3] at h
          cases h4 : extractKind .CCR d with
          | error e => rw [h4] at h; simp at h
          | ok ccr =>
            rw [h4] at h
            simp only [exBind_ok, Option.some.injEq] at h
            refine ⟨by rw [← h], fun k => ?_⟩
            cases k with
            | R1 => rw [h1, ← h]; rfl
            | R2 => rw [h2, ← h]; rfl
            | NOE => rw [h3, ← h]; rfl
            | CCR => rw [h4, ← h]; rfl

theorem parse_of_extracts (d : JValue) (bmrb_id : Nat)
    (r1 r2 noe ccr : List Measurement) (ht : pyTruthy d = true)
    (h1 : extractKind .R1 d = .ok r1) (h2 : extractKind .R2 d = .ok r2)
    (h3 : extractKind .NOE d = .ok noe) (h4 : extractKind .CCR d = .ok ccr) :
    parse_relaxation_data (some d) bmrb_id =
      some { bmrb_id := bmrb_id, R1 := r1, R2 := r2, NOE := noe, CCR := ccr } := by
  simp [parse_relaxation_data, ht, h1, h2, h3, h4]

/-- C3: when the input raw document is absent (Python `None`),
`parse_relaxation_data` returns `None` immediately for every identifier;
the model is pure, so no field access or side effect occurs. -/
theorem c3_absent_input_short_circuits (bmrb_id : Nat) :
    parse_relaxation_data none bmrb_id = none := rfl

/-- C10: a present but empty document (a mapping with no sections, which is
falsy in Python) makes `parse_relaxation_data` return `None` — the `if not
entry_data` guard conflates the empty mapping with an absent input, so the
empty document never yields the record set with four empty sequences. -/
theorem c10_empty_document_conflated_with_absent (bmrb_id : Nat) :
    parse_relaxation_data (some (.jobj [])) bmrb_id = none := rfl

/-- C4: any document whose R1 section rows are exactly the one row
`{residue 1, atom "N", value "1.2", error "0.05"}` and which carries none of
the other three observable section keys normalizes to a record set with the
originating identifier, exactly one R1 measurement `(1, "N", 1.2, 0.05)`
(string-valued numeric fields coerced to exact floating point), and empty
R2/NOE/CCR sequences. -/
theorem c4_one_row_scenario (fields : List (String × JValue)) (bmrb_id : Nat)
    (h1 : collectSectionRows (sectionKey .R1) (.jobj fields) =
      .ok [.jobj [("Comp_index_ID", .jnum 1), ("Atom_ID", .jstr "N"),
                  ("Val", .jstr "1.2"), ("Val_err", .jstr "0.05")]])
    (h2 : List.lookup (sectionKey .R2) fields = none)
    (h3 : List.lookup (sectionKey .NOE) fields = none)
    (h4 : List.lookup (sectionKey .CCR) fields = none) :
    parse_relaxation_data (some (.jobj fields)) bmrb_id =
      some { bmrb_id := bmrb_id
             R1 := [{ residue := some (.jnum 1), label := .jstr "N",
                      value := 6/5, error := 1/20 }]
             R2 := [], NOE := [], CCR := [] } := by
  have ht : pyTruthy (.jobj fields) = true := by
    cases fields with
    | nil =>
      exfalso
      rw [show collectSectionRows (sectionKey .R1) (.jobj []) = .ok [] from rfl] at h1
      simp at h1
    | cons p rest => rfl
  have hr1 : extractKind .R1 (.jobj fields) =
      .ok [{ residue := some (.jnum 1), label := .jstr "N",
             value := 6/5, error := 1/20 }] := by
    rw [extractKind]
    exact extractSection_of_collect (sectionKey .R1) (labelKey .R1) (labelDefault .R1)
      (.jobj fields) _ _ h1 (by with_unfolding_all rfl)
  have hempty : ∀ k, List.lookup (sectionKey k) fields = none →
      extractKind k (.jobj fields) = .ok [] := by
    intro k hk
    rw [extractKind, extractSection_jobj, hk]
    rfl
  exact parse_of_extracts _ _ _ _ _ _ ht hr1 (hempty .R2 h2) (hempty .NOE h3)
    (hempty .CCR h4)

/-- Witness for C4 at the canonical one-row document. -/
theorem c4_one_row_scenario_witness :
    parse_relaxation_data (some oneRowDoc) 15477 =
      some { bmrb_id := 15477
             R1 := [{ residue := some (.jnum 1), label := .jstr "N",
                      value := 6/5, error := 1/20 }]
             R2 := [], NOE := [], CCR := [] } :=
  c4_one_row_scenario _ 15477 (by with_unfolding_all rfl)
    (by with_unfolding_all rfl) (by with_unfolding_all rfl) (by with_unfolding_all rfl)

/-- C5: a well-formed row (one the row parser accepts) whose label field is
absent gets the kind's default label: `"N"` (the `Atom_ID` default) for the
non-CCR kinds and `"DD_CSA"` (the `Rex_type` default) for CCR. -/
theorem c5_label_defaults (k : Kind) (rf : List (String × JValue))
    (m : Measurement) (habs : List.lookup (labelKey k) rf = none)
    (h : parseRow (labelKey k) (labelDefault k) (.jobj rf) = .ok m) :
    (k ≠ .CCR → m.label = .jstr "N") ∧ (k = .CCR → m.label = .jstr "DD_CSA") := by
  have hl := parseRow_ok_label (labelKey k) (labelDefault k) rf m h
  rw [habs] at hl
  cases k with
  | R1 => exact ⟨fun _ => hl, fun hc => by cases hc⟩
  | R2 => exact ⟨fun _ => hl, fun hc => by cases hc⟩
  | NOE => exact ⟨fun _ => hl, fun hc => by cases hc⟩
  | CCR => exact ⟨fun hc => absurd rfl hc, fun _ => hl⟩

/-- Witness for C5 at the empty row, once per default: the R1 parse of `{}`
yields label `"N"`, the CCR parse of `{}` yields label `"DD_CSA"`. -/
theorem c5_label_defaults_witness :
    ((Kind.R1 ≠ Kind.CCR →
        Measurement.label { residue := none, label := .jstr "N", value := 0, error := 0 } =
          .jstr "N") ∧
      (Kind.R1 = Kind.CCR →
        Measurement.label { residue := none, label := .jstr "N", value := 0, error := 0 } =
          .jstr "DD_CSA")) ∧
    ((Kind.CCR ≠ Kind.CCR →
        Measurement.label { residue := none, label := .jstr "DD_CSA", value := 0, error := 0 } =
          .jstr "N") ∧
      (Kind.CCR = Kind.CCR →
        Measurement.label { residue := none, label := .jstr "DD_CSA", value := 0, error := 0 } =
          .jstr "DD_CSA")) :=
  ⟨c5_label_defaults .R1 [] _ rfl (by with_unfolding_all rfl),
   c5_label_defaults .CCR [] _ rfl (by with_unfolding_all rfl)⟩

/-- C6: for any row dict, a literally absent `Val` makes the produced value
0, a literally absent `Val_err` makes the produced error 0, and when both
are absent the row parse always succeeds (absence is never a parse
failure). -/
theorem c6_missing_numeric_fields_default_to_zero (lk ld : String)
    (rf : List (String × JValue)) :
    (List.lookup "Val" rf = none →
      ∀ m, parseRow lk ld (.jobj rf) = .ok m → m.value = 0) ∧
    (List.lookup "Val_err" rf = none →
      ∀ m, parseRow lk ld (.jobj rf) = .ok m → m.error = 0) ∧
    (List.lookup "Val" rf = none → List.lookup "Val_err" rf = none →
      parseRow lk ld (.jobj rf) =
        .ok { residue := List.lookup "Comp_index_ID" rf
              label := (List.lookup lk rf).getD (.jstr ld)
              value := 0, error := 0 }) := by
  refine ⟨?_, ?_, ?_⟩
  · intro hv m h
    simp only [parseRow, hv, Option.getD_none] at h
    rw [show pyFloat (.jnum 0) = .ok 0 from rfl] at h
    simp only [exBind_ok] at h
    cases h2 : pyFloat ((List.lookup "Val_err" rf).getD (.jnum 0)) with
    | error e => rw [h2] at h; simp at h
    | ok e =>
      rw [h2] at h
      simp only [exBind_ok, Except.ok.injEq] at h
      rw [← h]
  · intro he m h
    simp only [parseRow, he, Option.getD_none] at h
    cases h1 : pyFloat ((List.lookup "Val" rf).getD (.jnum 0)) with
    | error e => rw [h1] at h; simp at h
    | ok v =>
      rw [h1] at h
      rw [show pyFloat (.jnum 0) = .ok 0 from rfl] at h
      simp only [exBind_ok, Except.ok.injEq] at h
      rw [← h]
  · intro hv he
    simp [parseRow, hv, he, pyFloat]

/-- Witness for C6 at the empty row: both numeric fields absent, the parse
succeeds with value 0 and error 0. -/
theorem c6_missing_numeric_fields_witness :
    parseRow "Atom_ID" "N" (.jobj []) =
      .ok { residue := List.lookup "Comp_index_ID" ([] : List (String × JValue))
            label := (List.lookup "Atom_ID" ([] : List (String × JValue))).getD (.jstr "N")
            value := 0, error := 0 } :=
  (c6_missing_numeric_fields_default_to_zero "Atom_ID" "N" []).2.2 rfl rfl

/-- C1: whole-entry abort.  (i) For a present (truthy) document, an
exception while extracting any one of the four kinds makes
`parse_relaxation_data` return `None` for the whole entry — no partial
record set survives, whatever the other sections held.  (ii) A row with a
present `Val` or `Val_err` that `float` cannot coerce makes the row parse
raise.  (iii) Such a row sitting in any data loop of a kind's section makes
that kind's extraction raise. -/
theorem c1_whole_entry_abort :
    (∀ (d : JValue) (bmrb_id : Nat), pyTruthy d = true →
      (∃ k : Kind, extractKind k d = .error ()) →
      parse_relaxation_data (some d) bmrb_id = none) ∧
    (∀ (lk ld : String) (rf : List (String × JValue)),
      ((∃ v, List.lookup "Val" rf = some v ∧ pyFloat v = .error ()) ∨
        (∃ w, List.lookup "Val_err" rf = some w ∧ pyFloat w = .error ())) →
      parseRow lk ld (.jobj rf) = .error ()) ∧
    (∀ (k : Kind) (fields : List (String × JValue)) (loops : List JValue)
       (lf : List (String × JValue)) (rows : List JValue),
      List.lookup (sectionKey k) fields = some (.jarr loops) →
      (.jobj lf) ∈ loops →
      List.lookup "data" lf = some (.jarr rows) →
      (∃ r ∈ rows, parseRow (labelKey k) (labelDefault k) r = .error ()) →
      extractKind k (.jobj fields) = .error ()) := by
  refine ⟨?_, ?_, ?_⟩
  · intro d bmrb_id hp herr
    obtain ⟨k, hk⟩ := herr
    simp only [parse_relaxation_data, hp, if_true]
    cases k with
    | R1 => simp [hk]
    | R2 => cases h1 : extractKind .R1 d <;> simp [h1, hk]
    | NOE =>
      cases h1 : extractKind .R1 d <;> cases h2 : extractKind .R2 d <;>
        simp [h1, h2, hk]
    | CCR =>
      cases h1 : extractKind .R1 d <;> cases h2 : extractKind .R2 d <;>
        cases h3 : extractKind .NOE d <;> simp [h1, h2, h3, hk]
  · intro lk ld rf hcase
    rcases hcase with ⟨v, hv, hverr⟩ | ⟨w, hw, hwerr⟩
    · simp [parseRow, hv, hverr]
    · simp only [parseRow, hw, Option.getD_some]
      cases h1 : pyFloat ((List.lookup "Val" rf).getD (.jnum 0)) with
      | error e => rfl
      | ok v => simp [hwerr]
  · intro k fields loops lf rows hsec hmem hdata hrow
    obtain ⟨r, hrmem, hrerr⟩ := hrow
    rw [extractKind, extractSection_jobj, hsec]
    have hloop : extractLoop1 (labelKey k) (labelDefault k) (.jobj lf) = .error () := by
      have hrows : parseRows (labelKey k) (labelDefault k) rows = .error () :=
        parseRows_error_of_mem _ _ rows r hrmem hrerr
      simp [extractLoop1, pyContains, pyGetItem, pyIter, hdata, hrows]
    rw [sectionOfLookup, pyIter, exBind_ok]
    exact extractLoops_error_of_mem _ _ loops _ hmem hloop

/-- Witness for C1: a document whose T1 section carries a row with the
non-coercible value `"abc"` and whose NOE section is entirely well-formed
normalizes to `None` — the well-formed NOE measurements are discarded too. -/
theorem c1_whole_entry_abort_witness :
    parse_relaxation_data (some badValDoc) 15477 = none ∧
    extractKind .NOE badValDoc =
      .ok [{ residue := some (.jnum 3), label := .jstr "N", value := 2, error := 0 }] :=
  ⟨c1_whole_entry_abort.1 badValDoc 15477 (by with_unfolding_all rfl)
      ⟨.R1, by with_unfolding_all rfl⟩,
    by with_unfolding_all rfl⟩

/-- C2: a kind whose section key is absent from the document contributes an
empty sequence and raises nothing; and every kind's extraction depends on
the document only through its own section key (restricting the document to
that key leaves the extraction unchanged), so absence of one section never
changes another kind's output. -/
theorem c2_missing_section_skipped_and_independent
    (fields : List (String × JValue)) (k : Kind)
    (habs : List.lookup (sectionKey k) fields = none) :
    extractKind k (.jobj fields) = .ok [] ∧
    (∀ bmrb_id r, parse_relaxation_data (some (.jobj fields)) bmrb_id = some r →
      kindSeq k r = []) ∧
    ∀ j : Kind, extractKind j (.jobj fields) =
      extractKind j (.jobj (fields.filter fun p => p.1 == sectionKey j)) := by
  have hk : extractKind k (.jobj fields) = .ok [] := by
    rw [extractKind, extractSection_jobj, habs]
    rfl
  refine ⟨hk, ?_, ?_⟩
  · intro bmrb_id r hr
    have h2 := (parse_ok_extract _ _ _ hr).2 k
    rw [hk] at h2
    exact (Except.ok.inj h2).symm
  · intro j
    rw [extractKind, extractKind, extractSection_jobj, extractSection_jobj,
      lookup_filter_self]

/-- Witness for C2: in a document holding only an NOE section, the R1 key is
absent, R1 extraction is the empty sequence, and the NOE extraction equals
the extraction from the document restricted to the NOE key alone. -/
theorem c2_missing_section_witness :
    extractKind .R1 (.jobj [("heteronucl_NOEs", .jarr [])]) = .ok [] ∧
    kindSeq .R1 { bmrb_id := 3, R1 := [], R2 := [], NOE := [], CCR := [] } = [] ∧
    extractKind .NOE (.jobj [("heteronucl_NOEs", .jarr [])]) =
      extractKind .NOE (.jobj (([("heteronucl_NOEs", JValue.jarr [])]).filter
        fun p => p.1 == sectionKey .NOE)) :=
  ⟨(c2_missing_section_skipped_and_independent [("heteronucl_NOEs", .jarr [])] .R1
      (by with_unfolding_all rfl)).1,
    (c2_missing_section_skipped_and_independent [("heteronucl_NOEs", .jarr [])] .R1
      (by with_unfolding_all rfl)).2.1 3 _ (by with_unfolding_all rfl),
    (c2_missing_section_skipped_and_independent [("heteronucl_NOEs", .jarr [])] .R1
      (by with_unfolding_all rfl)).2.2 .NOE⟩

/-- C7: order preservation.  Whenever normalization succeeds, each kind's
output sequence is exactly the per-row parses of that kind's source rows
taken in document order (loops in section order, rows in loop order): one
measurement per row, equal lengths — no sorting or reordering. -/
theorem c7_row_order_preserved (d : JValue) (bmrb_id : Nat)
    (r : RelaxationRecordSet)
    (h : parse_relaxation_data (some d) bmrb_id = some r) (k : Kind) :
    ∃ rows : List JValue,
      collectSectionRows (sectionKey k) d = .ok rows ∧
      parseRows (labelKey k) (labelDefault k) rows = .ok (kindSeq k r) ∧
      (kindSeq k r).length = rows.length := by
  have h2 := (parse_ok_extract d bmrb_id r h).2 k
  rw [extractKind] at h2
  exact extractSection_rows _ _ _ _ _ h2

/-- Witness for C7 at a two-row T1 document: the collected rows are the two
source rows in order and the R1 sequence holds their parses in the same
order. -/
theorem c7_row_order_witness :
    ∃ rows : List JValue,
      collectSectionRows (sectionKey .R1) twoRowDoc = .ok rows ∧
      parseRows (labelKey .R1) (labelDefault .R1) rows =
        .ok (kindSeq .R1
          { bmrb_id := 1
            R1 := [{ residue := some (.jnum 1), label := .jstr "N", value := 1, error := 0 },
                   { residue := some (.jnum 2), label := .jstr "N", value := 2, error := 0 }]
            R2 := [], NOE := [], CCR := [] }) ∧
      (kindSeq .R1
          { bmrb_id := 1
            R1 := [{ residue := some (.jnum 1), label := .jstr "N", value := 1, error := 0 },
                   { residue := some (.jnum 2), label := .jstr "N", value := 2, error := 0 }]
            R2 := [], NOE := [], CCR := [] }).length = rows.length :=
  c7_row_order_preserved twoRowDoc 1 _ (by with_unfolding_all rfl) .R1

theorem get_pdb_jobj_rows (fields : List (String × JValue)) (rows : List JValue)
    (hlook : List.lookup "related_entries" fields = some (.jarr rows)) :
    get_pdb_structure (some (.jobj fields)) =
      match scanRelated rows with
      | .ok v => v
      | .error _ => none := by
  simp [get_pdb_structure, pyContains, pyGetItem, pyIter, hlook]

/-- C8: the structure resolver returns the `Database_accession_code` entry
of the first `related_entries` row whose `Database_name` entry is `"PDB"`
when the rows before it are well-formed non-matches; it returns `None` on an
absent document, on a document without the section, and when no row matches
— it never raises (the model is total, every exception is caught). -/
theorem c8_structure_reference :
    (get_pdb_structure none = none) ∧
    (∀ fields, List.lookup "related_entries" fields = none →
      get_pdb_structure (some (.jobj fields)) = none) ∧
    (∀ fields (pre : List JValue) (rowf : List (String × JValue)) rest,
      List.lookup "related_entries" fields = some (.jarr (pre ++ .jobj rowf :: rest)) →
      (∀ r ∈ pre, ∃ rf, r = .jobj rf ∧
        List.lookup "Database_name" rf ≠ some (.jstr "PDB")) →
      List.lookup "Database_name" rowf = some (.jstr "PDB") →
      get_pdb_structure (some (.jobj fields)) =
        List.lookup "Database_accession_code" rowf) ∧
    (∀ fields (rows : List JValue),
      List.lookup "related_entries" fields = some (.jarr rows) →
      (∀ r ∈ rows, ∃ rf, r = .jobj rf ∧
        List.lookup "Database_name" rf ≠ some (.jstr "PDB")) →
      get_pdb_structure (some (.jobj fields)) = none) := by
  refine ⟨rfl, ?_, ?_, ?_⟩
  · intro fields hlook
    simp [get_pdb_structure, pyContains, hlook]
  · intro fields pre rowf rest hlook hpre hmatch
    rw [get_pdb_jobj_rows fields _ hlook, scanRelated_skip pre _ hpre]
    simp [scanRelated, hmatch]
  · intro fields rows hlook hall
    rw [get_pdb_jobj_rows fields _ hlook]
    have hskip := scanRelated_skip rows [] hall
    rw [List.append_nil] at hskip
    rw [hskip]
    rfl

/-- Witness for C8: the scan skips a leading non-PDB row and returns the
accession code of the matching row; a sectionless document and an absent
document give `None`. -/
theorem c8_structure_reference_witness :
    get_pdb_structure none = none ∧
    get_pdb_structure (some pdbDoc) = some (.jstr "1P7E") ∧
    get_pdb_structure (some (.jobj [("Entry_ID", .jnum 1)])) = none := by
  refine ⟨c8_structure_reference.1, ?_,
    c8_structure_reference.2.1 [("Entry_ID", .jnum 1)] (by with_unfolding_all rfl)⟩
  have hpre : ∀ r ∈ [JValue.jobj [("Database_name", JValue.jstr "BMRB")]],
      ∃ rf, r = JValue.jobj rf ∧
        List.lookup "Database_name" rf ≠ some (JValue.jstr "PDB") := by
    intro r hr
    rw [List.mem_singleton] at hr
    subst hr
    refine ⟨_, rfl, ?_⟩
    intro hcon
    have h2 : (some (JValue.jstr "BMRB") : Option JValue) = some (.jstr "PDB") := by
      rw [← hcon]
      with_unfolding_all rfl
    exact absurd (JValue.jstr.inj (Option.some.inj h2)) (by decide)
  have h := c8_structure_reference.2.2.1
    [("related_entries", .jarr [.jobj [("Database_name", .jstr "BMRB")],
      .jobj [("Database_name", .jstr "PDB"), ("Database_accession_code", .jstr "1P7E")]])]
    [.jobj [("Database_name", .jstr "BMRB")]]
    [("Database_name", .jstr "PDB"), ("Database_accession_code", .jstr "1P7E")]
    [] (by with_unfolding_all rfl) hpre (by with_unfolding_all rfl)
  have h2 : List.lookup "Database_accession_code"
      [("Database_name", JValue.jstr "PDB"),
       ("Database_accession_code", JValue.jstr "1P7E")] = some (.jstr "1P7E") := by
    with_unfolding_all rfl
  exact h.trans h2

/-- C9: `fetch_entry` is cache-first: a hit returns the cached document with
no remote call and the cache untouched; a miss with a 200 response persists
the body under the identifier (it is then retrievable by that key) and
reports it, with a remote call made; a miss with a non-200 response returns
`None` and leaves the cache unchanged. -/
theorem c9_fetch_entry_cache_first (remote : Nat → RemoteResponse)
    (cache : List (Nat × JValue)) (bmrb_id : Nat) :
    (∀ doc, List.lookup bmrb_id cache = some doc →
      fetch_entry remote cache bmrb_id = (some doc, cache, false)) ∧
    (List.lookup bmrb_id cache = none → (remote bmrb_id).status_code = 200 →
      fetch_entry remote cache bmrb_id =
        (some (remote bmrb_id).body, (bmrb_id, (remote bmrb_id).body) :: cache, true) ∧
      List.lookup bmrb_id ((bmrb_id, (remote bmrb_id).body) :: cache) =
        some (remote bmrb_id).body) ∧
    (List.lookup bmrb_id cache = none → (remote bmrb_id).status_code ≠ 200 →
      fetch_entry remote cache bmrb_id = (none, cache, true)) := by
  refine ⟨?_, ?_, ?_⟩
  · intro doc hdoc
    simp [fetch_entry, hdoc]
  · intro hmiss h200
    refine ⟨by simp [fetch_entry, hmiss, h200], by simp [List.lookup]⟩
  · intro hmiss hfail
    have hb : ((remote bmrb_id).status_code == 200) = false := by simpa using hfail
    simp [fetch_entry, hmiss, hb]

/-- Witness for C9: with one cached entry the call returns it without a
remote request; on a miss a 200 response is stored under the identifier and
returned; on a miss a 404 response yields `None` and an unchanged cache. -/
theorem c9_fetch_entry_witness :
    fetch_entry (fun _ => ⟨200, .jnull⟩) [(5, .jbool true)] 5 =
      (some (.jbool true), [(5, .jbool true)], false) ∧
    fetch_entry (fun _ => ⟨200, .jnull⟩) [] 5 = (some .jnull, [(5, .jnull)], true) ∧
    List.lookup 5 [(5, JValue.jnull)] = some .jnull ∧
    fetch_entry (fun _ => ⟨404, .jnull⟩) [] 5 = (none, [], true) :=
  ⟨(c9_fetch_entry_cache_first (fun _ => ⟨200, .jnull⟩) [(5, .jbool true)] 5).1
      (.jbool true) rfl,
    ((c9_fetch_entry_cache_first (fun _ => ⟨200, .jnull⟩) [] 5).2.1 rfl rfl).1,
    ((c9_fetch_entry_cache_first (fun _ => ⟨200, .jnull⟩) [] 5).2.1 rfl rfl).2,
    (c9_fetch_entry_cache_first (fun _ => ⟨404, .jnull⟩) [] 5).2.2 rfl (by decide)⟩

end BMRB
